import Mathlib

/-!
Verification of the ocr_compare repository: a shallow embedding of the
frontend OCR comparison logic (Vue components and composables), the SQL
schema and seed data, and — where the spec describes backend components
whose code is not in the repository snapshot — models built from the
design document. Machine arithmetic of the embedded JavaScript is modelled
with rationals, nullable values with Option.
-/

namespace OcrCompare

/-! ## JavaScript value helpers

Small helpers capturing the JavaScript coercions the embedded code relies
on: null coerces to 0 in numeric comparison, the empty string is falsy,
and the logical-or operator picks the first truthy operand. -/

/-- JS numeric coercion for a nullable number used in a comparison:
null behaves as 0. -/
def jsNum (v : Option ℚ) : ℚ := v.getD 0

/-- JS truthiness of a nullable string: null and the empty string are
falsy. -/
def jsStrTruthy : Option String → Bool
  | none => false
  | some s => s ≠ ""

/-- The JS expression a || d on a nullable string a: d when a is null or
empty. -/
def jsStrOr (a : Option String) (d : String) : String :=
  match a with
  | none => d
  | some s => if s = "" then d else s

/-- JS Math.round: rounds half toward positive infinity. -/
def jsRound (q : ℚ) : ℤ := ⌊q + 1 / 2⌋

/-- The JS comparison a > b on two nullable numbers. -/
def jsGtNum (a b : Option ℚ) : Bool := decide (jsNum b < jsNum a)

/-! ## OCR comparison Vue component

From the OcrComparison component (part_004): the shape in which an
OcrResult reaches the component, and its methods isBestResult and
getConfidencePercent. -/

/-- An OcrResult as consumed by the OcrComparison component. -/
structure UiOcrResult where
  id : Nat
  engine : String
  extractedText : Option String
  confidenceScore : Option ℚ
  processingTimeMs : Option ℚ
  estimatedCost : Option ℚ
  errorMessage : Option String
  deriving Repr, DecidableEq

/-- From part_004 lines 306-316: Array.reduce with no initial value seeds
the accumulator with the first element; each later element replaces the
accumulator only when it has no (truthy) errorMessage and a strictly
higher confidence under JS null coercion. -/
def isBestResult (ocrResults : List UiOcrResult) (result : UiOcrResult) : Bool :=
  match ocrResults with
  | [] => false
  | first :: rest =>
    let bestResult := rest.foldl
      (fun best current =>
        if !jsStrTruthy current.errorMessage &&
            jsGtNum current.confidenceScore best.confidenceScore
        then current
        else best)
      first
    result.id == bestResult.id

/-- From part_004 lines 318-321. -/
def getConfidencePercent (confidence : Option ℚ) : ℤ :=
  match confidence with
  | none => 0
  | some c => jsRound (c * 100)

/-- The failed easyocr OcrResult of the seed data (01_init.sql sample
rows), as the list view delivers it to the component. -/
def easyocrFailedUiResult : UiOcrResult :=
  { id := 3
    engine := "easyocr"
    extractedText := some ""
    confidenceScore := none
    processingTimeMs := some 1200
    estimatedCost := some (mkRat 15 100)
    errorMessage := some "Image processing failed: Low resolution" }

/-- A successful result with confidence 0, to exercise the JS coercion
null-as-0 in isBestResult. -/
def zeroConfidenceUiResult : UiOcrResult :=
  { id := 4
    engine := "tesseract"
    extractedText := some "x"
    confidenceScore := some 0
    processingTimeMs := some 400
    estimatedCost := none
    errorMessage := none }

/-! ## Database schema and seed data

From postgres/init-scripts/01_init.sql (the ocr_results table) and the
sample-data insert script (part_007). Every column whose SQL type allows
NULL is an Option; the NOT NULL discipline of the schema is the predicate
ocrRowSchemaOk. -/

/-- A row of the ocr_results table. id, document_id and engine are NOT
NULL with no interesting content, so they are plain strings; the remaining
columns carry the SQL nullability. -/
structure OcrResultRow where
  id : String
  documentId : String
  engine : String
  extractedText : Option String
  confidenceScore : Option ℚ
  processingTimeMs : Option ℤ
  pageMetrics : Option String
  estimatedCost : Option ℚ
  errorMessage : Option String
  deriving Repr, DecidableEq

/-- The NOT NULL constraints of ocr_results (01_init.sql lines 67-83)
on the columns modelled as nullable: extracted_text and
processing_time_ms are declared NOT NULL. -/
def ocrRowSchemaOk (r : OcrResultRow) : Bool :=
  r.extractedText.isSome && r.processingTimeMs.isSome

/-- The failed easyocr row of the sample data (part_007): note
extracted_text is the empty string, not NULL. -/
def easyocrFailedRow : OcrResultRow :=
  { id := "f0eebc99-9c0b-4ef8-bb6d-6bb9bd380a15"
    documentId := "b0eebc99-9c0b-4ef8-bb6d-6bb9bd380a15"
    engine := "easyocr"
    extractedText := some ""
    confidenceScore := none
    processingTimeMs := some 1200
    pageMetrics := none
    estimatedCost := some (mkRat 15 100)
    errorMessage := some "Image processing failed: Low resolution" }

/-- All rows the repository inserts into ocr_results (part_007). -/
def sampleOcrResults : List OcrResultRow :=
  [ { id := "d0eebc99-9c0b-4ef8-bb6d-6bb9bd380a15"
      documentId := "a0eebc99-9c0b-4ef8-bb6d-6bb9bd380a15"
      engine := "paddleocr"
      extractedText := some "Annual Financial Report 2023...Full extracted text..."
      confidenceScore := some (mkRat 92 100)
      processingTimeMs := some 3500
      pageMetrics := some "[page 1 confidence 0.95 words 420; page 2 confidence 0.89 words 380]"
      estimatedCost := some (mkRat 7 100)
      errorMessage := none }
  , { id := "e0eebc99-9c0b-4ef8-bb6d-6bb9bd380a15"
      documentId := "a0eebc99-9c0b-4ef8-bb6d-6bb9bd380a15"
      engine := "tesseract"
      extractedText := some "Annual Financial Report 2023...Slightly different text extraction..."
      confidenceScore := some (mkRat 85 100)
      processingTimeMs := some 4200
      pageMetrics := some "[page 1 confidence 0.87 words 410; page 2 confidence 0.83 words 370]"
      estimatedCost := none
      errorMessage := none }
  , easyocrFailedRow ]

/-- Confidence column range check: in [0,1] whenever present. -/
def confidenceInRange (c : Option ℚ) : Bool :=
  match c with
  | none => true
  | some q => decide (0 ≤ q) && decide (q ≤ 1)

/-! ## Recording of adapter outcomes (spec-modelled)

The backend that turns an engine invocation into an ocr_results row is
not part of the repository snapshot; it is modelled here from the design
document. -/

/-- The tagged outcome of one engine adapter call (spec section 4.1). -/
inductive Outcome where
  | success (text : String) (confidence : ℚ) (cost : Option ℚ) (elapsedMs : ℤ)
  | failure (reason : String) (elapsedMs : ℤ)
  deriving Repr, DecidableEq

/-- Adapter contract: a successful recognition reports a confidence in
[0,1] (spec section 6). -/
def OutcomeWf : Outcome → Prop
  | .success _ c _ _ => 0 ≤ c ∧ c ≤ 1
  | .failure _ _ => True

/-- Modelled from the spec: the persistence of one terminal engine
Outcome as an ocr_results row (spec sections 3, 4.1 and 7; the
orchestrator backend is not in the repository). A success stores the
confidence and no error message; a failure stores the reason and no
confidence, with the empty extracted text the seed data shows, and the
elapsed time reported by the adapter in both cases. -/
def recordOutcome (id documentId engine : String) : Outcome → OcrResultRow
  | .success text confidence cost elapsedMs =>
    { id := id
      documentId := documentId
      engine := engine
      extractedText := some text
      confidenceScore := some confidence
      processingTimeMs := some elapsedMs
      pageMetrics := none
      estimatedCost := cost
      errorMessage := none }
  | .failure reason elapsedMs =>
    { id := id
      documentId := documentId
      engine := engine
      extractedText := some ""
      confidenceScore := none
      processingTimeMs := some elapsedMs
      pageMetrics := none
      estimatedCost := none
      errorMessage := some reason }

/-! ## Axios response interceptor

From frontend/src/api/interceptor.ts, lines 45-71: the fulfilled branch
of the response interceptor as a pure function from the response body to
a resolved or rejected outcome. The Modal and Message side effects do not
change the returned promise and are not modelled. -/

/-- A non-string JSON response body with the HttpResponse fields the
interceptor reads. The payload is abstracted to a string. -/
structure HttpBodyObj where
  status : ℤ
  code : ℤ
  msg : Option String
  data : String
  deriving Repr, DecidableEq

/-- An axios response body: the interceptor distinguishes plain strings
from response objects. -/
inductive HttpBody where
  | strBody (s : String)
  | objBody (r : HttpBodyObj)
  deriving Repr, DecidableEq

/-- The localized fallback text the interceptor uses when the body has no
usable msg. -/
def requestErrorText : String := "request error"

/-- The settled state of the promise the interceptor returns. -/
inductive InterceptOutcome where
  | resolved (b : HttpBody)
  | rejected (errMessage : String)
  deriving Repr, DecidableEq

/-- The onFulfilled handler of axios.interceptors.response.use: a string
body passes through; a non-string body with non-zero code becomes a
rejection carrying new Error(res.msg || fallback); code 0 resolves with
the body itself. -/
def responseOnFulfilled (b : HttpBody) : InterceptOutcome :=
  match b with
  | .strBody s => .resolved (.strBody s)
  | .objBody r =>
    if r.code ≠ 0 then .rejected (jsStrOr r.msg requestErrorText)
    else .resolved (.objBody r)

/-! ## Progress channel

The ProgressData shape is the frontend interface in
useOcrProgress.ts lines 7-17 (current and total are integral, percentage
and timestamp are general numbers, per the wire schema of the design
document, section 6 — the server-side producer is not in the repository).
The subscription handshake is built exactly as in sendOCRProgress line
89. JSON documents are a small value tree. -/

/-- A progress message (ProgressData in useOcrProgress.ts). -/
structure ProgressData where
  document_id : String
  stage : String
  current : ℤ
  total : ℤ
  percentage : ℚ
  message : String
  completed : Option Bool
  success : Option Bool
  timestamp : ℚ
  deriving Repr, DecidableEq

/-- A JSON value: string, number, boolean or object. -/
inductive Json where
  | jstr (s : String)
  | jnum (q : ℚ)
  | jbool (b : Bool)
  | jobj (fields : List (String × Json))
  deriving Repr

/-- Kind check: a JSON string. -/
def Json.isStr : Json → Bool
  | .jstr _ => true
  | _ => false

/-- Kind check: any JSON number. -/
def Json.isNum : Json → Bool
  | .jnum _ => true
  | _ => false

/-- Kind check: a JSON number that is an integer. -/
def Json.isIntNum : Json → Bool
  | .jnum q => q.den == 1
  | _ => false

/-- Kind check: a JSON boolean. -/
def Json.isBool : Json → Bool
  | .jbool _ => true
  | _ => false

/-- Kind check: a JSON object. -/
def Json.isObj : Json → Bool
  | .jobj _ => true
  | _ => false

/-- Field lookup in a JSON object. -/
def jsonField (j : Json) (key : String) : Option Json :=
  match j with
  | .jobj fields => fields.lookup key
  | _ => none

/-- The keys of a JSON object. -/
def jsonKeys : Json → List String
  | .jobj fields => fields.map Prod.fst
  | _ => []

/-- Modelled from the spec: the JSON object the server pushes for one
progress message (wire schema, design document section 6; the producer
backend is not in the repository). JSON.stringify omits the optional
fields when they are undefined. -/
def progressMessageJson (p : ProgressData) : Json :=
  .jobj
    ([("document_id", .jstr p.document_id), ("stage", .jstr p.stage),
      ("current", .jnum (p.current : ℚ)), ("total", .jnum (p.total : ℚ)),
      ("percentage", .jnum p.percentage), ("message", .jstr p.message)]
      ++ (match p.completed with
          | some b => [("completed", Json.jbool b)]
          | none => [])
      ++ (match p.success with
          | some b => [("success", Json.jbool b)]
          | none => [])
      ++ [("timestamp", .jnum p.timestamp)])

/-- The subscription handshake sendOCRProgress sends:
JSON.stringify of an object literal with fields doc_id and token
(useOcrProgress.ts line 89). -/
def handshakeMessage (documentId token : String) : Json :=
  .jobj [("doc_id", .jstr documentId), ("token", .jstr token)]

/-- Required field check against a kind. -/
def fieldSatisfies (j : Json) (key : String) (kind : Json → Bool) : Bool :=
  match jsonField j key with
  | some v => kind v
  | none => false

/-- Optional field check: absent, or of the kind. -/
def optionalFieldSatisfies (j : Json) (key : String) (kind : Json → Bool) : Bool :=
  match jsonField j key with
  | some v => kind v
  | none => true

/-- The progress wire schema exactly as the design document states it:
document_id, stage and message are strings, current and total ints,
percentage and timestamp numbers, completed and success optional
booleans, and no other field. -/
def progressWireSchemaOk (j : Json) : Bool :=
  j.isObj &&
  fieldSatisfies j "document_id" Json.isStr &&
  fieldSatisfies j "stage" Json.isStr &&
  fieldSatisfies j "current" Json.isIntNum &&
  fieldSatisfies j "total" Json.isIntNum &&
  fieldSatisfies j "percentage" Json.isNum &&
  fieldSatisfies j "message" Json.isStr &&
  optionalFieldSatisfies j "completed" Json.isBool &&
  optionalFieldSatisfies j "success" Json.isBool &&
  fieldSatisfies j "timestamp" Json.isNum &&
  (jsonKeys j).all
    (fun k => ["document_id", "stage", "current", "total", "percentage",
               "message", "completed", "success", "timestamp"].contains k)

/-! ## Progress emission and fan-out (spec-modelled)

Modelled from the design document (sections 4.2, 4.4 and 6; the Progress
Publisher backend is not in the repository): the orchestrator emits one
event per terminal EngineRun with current equal to the number of terminal
runs, total the number of requested engines, percentage their quotient,
and the wall-clock timestamp; the publisher delivers to a subscriber who
joined at position j the latest known snapshot followed by every later
event, never a replay of earlier ones. -/

/-- The k-th emitted event of a run (k terminal outcomes seen, counting
from zero). -/
def progressEventAt (documentId : String) (total : ℕ) (times : ℕ → ℚ) (k : ℕ) :
    ProgressData :=
  { document_id := documentId
    stage := "ocr"
    current := (k : ℤ) + 1
    total := (total : ℤ)
    percentage := 100 * ((k : ℚ) + 1) / (total : ℚ)
    message := "engine terminal"
    completed := if k + 1 = total then some true else none
    success := none
    timestamp := times k }

/-- The ordered per-document event log of one run with the given
monotone wall clock. -/
def emittedLog (documentId : String) (total : ℕ) (times : ℕ → ℚ) :
    List ProgressData :=
  (List.range total).map (progressEventAt documentId total times)

/-- Delivery to a subscriber who joined after joinIdx events: the latest
known snapshot, then all subsequent events. -/
def deliveredTo (log : List ProgressData) (joinIdx : ℕ) : List ProgressData :=
  log.drop (joinIdx - 1)

/-! ## Orchestrator run lifecycle (spec-modelled)

Modelled from the design document, sections 3, 4.2 and 5 (the
orchestrator backend is not in the repository): a run holds one
EngineRun per requested engine; when the last EngineRun reaches a
terminal state the run finalizes in the same step — with at least one
success the document completes and gets a recommendation, with zero
successes it is marked failed with a null recommendation. An explicit
cancellation marks every non-terminal EngineRun cancelled and finalizes
immediately. -/

/-- EngineRun lifecycle states (design document section 3). -/
inductive EngineState where
  | queued
  | running
  | succeeded
  | failed
  | timedOut
  | cancelled
  deriving Repr, DecidableEq

/-- The terminal EngineRun states. -/
def EngineState.isTerminal : EngineState → Bool
  | .queued => false
  | .running => false
  | _ => true

/-- The orchestrator-visible state of one run: the EngineRun states, the
document status and the recommendation. -/
structure RunState where
  engines : List EngineState
  status : String
  recommendation : Option String
  deriving Repr, DecidableEq

/-- All EngineRuns of the run are terminal. -/
def allTerminal (s : RunState) : Bool :=
  s.engines.all EngineState.isTerminal

/-- At least one engine succeeded. -/
def anySucceeded (s : RunState) : Bool :=
  s.engines.any (· == EngineState.succeeded)

/-- Finalization (design document section 4.2): with a success, status
completed and a non-null recommendation naming the ranked-best engine;
with none, status failed and a null recommendation. -/
def finalizeRun (s : RunState) : RunState :=
  if anySucceeded s then
    { s with
      status := "completed"
      recommendation := some "recommendation naming the top-ranked engine" }
  else
    { s with status := "failed", recommendation := none }

/-- After an EngineRun turned terminal, finalize when it was the last
non-terminal one. -/
def maybeFinalize (s : RunState) : RunState :=
  if allTerminal s then finalizeRun s else s

/-- The run right after submit: every requested engine queued, document
processing, no recommendation. -/
def initRun (n : ℕ) : RunState :=
  { engines := List.replicate n .queued
    status := "processing"
    recommendation := none }

/-- The worker pool picks a queued EngineRun and starts it. -/
def startEngine (s : RunState) (i : ℕ) : RunState :=
  if s.engines[i]? = some .queued then
    { s with engines := s.engines.set i .running }
  else s

/-- A non-terminal EngineRun reaches the terminal state t (success,
failure, timeout); the orchestrator then finalizes if it was the last
one. -/
def finishEngine (s : RunState) (i : ℕ) (t : EngineState) : RunState :=
  match s.engines[i]? with
  | some e =>
    if !e.isTerminal && t.isTerminal then
      maybeFinalize { s with engines := s.engines.set i t }
    else s
  | none => s

/-- Document-level cancellation: every non-terminal EngineRun becomes
cancelled and the run finalizes with whatever succeeded so far. -/
def cancelRun (s : RunState) : RunState :=
  finalizeRun
    { s with
      engines := s.engines.map fun e => if e.isTerminal then e else .cancelled }

/-- The states a run over n engines can reach. -/
inductive RunReachable (n : ℕ) : RunState → Prop where
  | init : RunReachable n (initRun n)
  | start (s : RunState) (i : ℕ) :
      RunReachable n s → RunReachable n (startEngine s i)
  | finish (s : RunState) (i : ℕ) (t : EngineState) :
      RunReachable n s → RunReachable n (finishEngine s i t)
  | cancel (s : RunState) :
      RunReachable n s → RunReachable n (cancelRun s)

/-- The claimed recommendation discipline: null before all EngineRuns
are terminal; with all terminal, non-null and completed when one engine
succeeded, null and failed when none did. -/
def RecommendationInv (s : RunState) : Prop :=
  (allTerminal s = false → s.recommendation = none) ∧
  (allTerminal s = true → anySucceeded s = true →
    s.recommendation ≠ none ∧ s.status = "completed") ∧
  (allTerminal s = true → anySucceeded s = false →
    s.status = "failed" ∧ s.recommendation = none)

/-! ## Document list processing state

From the document list view (part_005): the processingDocuments set, the
isProcessing guard (lines 221-223), the Parse button that is disabled and
in loading state while isProcessing holds, parseDoc (lines 300-308), the
auto-start after a fresh upload (onDocChange), and the progress callback
that removes the id on a completed event (lines 286-298). The runs field
is a ghost history of the submissions sent over the socket: a pair is the
document id and whether that run is still active. -/

/-- The view state: the mutable set of processing document ids, plus the
ghost run history. -/
structure UiListState where
  processingDocuments : List String
  runs : List (String × Bool)
  deriving Repr, DecidableEq

/-- part_005 lines 221-223: a document counts as processing when its
server status is processing or its id is in processingDocuments. -/
def isProcessing (s : UiListState) (status documentId : String) : Bool :=
  status == "processing" || s.processingDocuments.contains documentId

/-- The body of parseDoc (lines 306-307): record the id as processing
and send the doc over the progress socket, starting a run. -/
def startParse (s : UiListState) (documentId : String) : UiListState :=
  { processingDocuments := documentId :: s.processingDocuments
    runs := (documentId, true) :: s.runs }

/-- Clicking the Parse button: the template disables the button while
isProcessing holds (part_005 lines 130-141), so the click is a no-op
then; otherwise parseDoc runs. -/
def parseDoc (s : UiListState) (status documentId : String) : UiListState :=
  if isProcessing s status documentId then s else startParse s documentId

/-- The useOcrProgress callback on a completed event (lines 294-297):
the id leaves processingDocuments and its run is no longer active. -/
def onProgressCompleted (s : UiListState) (documentId : String) : UiListState :=
  { processingDocuments := s.processingDocuments.erase documentId
    runs := s.runs.map fun r => if r.1 == documentId then (r.1, false) else r }

/-- How many runs are active for one document id. -/
def activeRunCount (s : UiListState) (documentId : String) : ℕ :=
  s.runs.countP fun r => r.1 == documentId && r.2

/-- The states the document list can reach: parse clicks, the auto-parse
right after an upload (whose server-assigned id is fresh), and completed
progress events. -/
inductive UiReachable : UiListState → Prop where
  | init : UiReachable ⟨[], []⟩
  | parse (s : UiListState) (status documentId : String) :
      UiReachable s → UiReachable (parseDoc s status documentId)
  | upload (s : UiListState) (documentId : String) :
      UiReachable s →
      (∀ b, (documentId, b) ∉ s.runs) →
      documentId ∉ s.processingDocuments →
      UiReachable (startParse s documentId)
  | complete (s : UiListState) (documentId : String) :
      UiReachable s → UiReachable (onProgressCompleted s documentId)

/-- Invariant tying the ghost run history to processingDocuments. -/
def UiInv (s : UiListState) : Prop :=
  s.processingDocuments.Nodup ∧
  (∀ r ∈ s.runs, r.2 = true → r.1 ∈ s.processingDocuments) ∧
  ∀ documentId, activeRunCount s documentId ≤ 1

/-! ## Metrics aggregator and ranking (spec-modelled)

Modelled from the design document section 4.3 (the Scorer backend is not
in the repository; the document itself notes the exact formula is not
observable and prescribes this one): per-engine composite score as a
configurable weighted sum of four signals min-max-normalized against the
other successful engines of the same run, and a ranking sorted descending
by composite score with ties broken by higher raw confidence, then lower
raw latency, then engine registration order. -/

/-- A successful outcome of the current run as the Scorer consumes it,
with the position of its engine in the registry. -/
structure EngineOutcome where
  engine : String
  regIndex : ℕ
  confidence : ℚ
  processingTimeMs : ℚ
  estimatedCost : Option ℚ
  textLength : ℕ
  deriving Repr, DecidableEq

/-- The configurable weights of the composite score. -/
structure ScoreWeights where
  wConfidence : ℚ
  wLatency : ℚ
  wCost : ℚ
  wTextQuality : ℚ
  deriving Repr, DecidableEq

/-- The default weights the design document proposes. -/
def defaultWeights : ScoreWeights :=
  { wConfidence := mkRat 4 10
    wLatency := mkRat 3 10
    wCost := mkRat 2 10
    wTextQuality := mkRat 1 10 }

/-- Minimum of a list of rationals (0 on the empty list). -/
def qMin : List ℚ → ℚ
  | [] => 0
  | x :: xs => xs.foldl min x

/-- Maximum of a list of rationals (0 on the empty list). -/
def qMax : List ℚ → ℚ
  | [] => 0
  | x :: xs => xs.foldl max x

/-- Median of a list of rationals: middle of the sorted list, mean of
the two middles on even length, 0 on the empty list. -/
def median (l : List ℚ) : ℚ :=
  let sorted := l.mergeSort fun a b => decide (a ≤ b)
  if sorted.length = 0 then 0
  else if sorted.length % 2 = 1 then sorted.getD (sorted.length / 2) 0
  else (sorted.getD (sorted.length / 2 - 1) 0 + sorted.getD (sorted.length / 2) 0) / 2

/-- Min-max normalization of a higher-is-better signal; a run where the
signal is constant normalizes to 1. -/
def normHigherBetter (lo hi v : ℚ) : ℚ :=
  if hi = lo then 1 else (v - lo) / (hi - lo)

/-- Min-max normalization of a lower-is-better signal; a run where the
signal is constant normalizes to 1. -/
def normLowerBetter (lo hi v : ℚ) : ℚ :=
  if hi = lo then 1 else (hi - v) / (hi - lo)

/-- The cost signal of one outcome: its estimated cost, or the run
median for an engine without a cost model. -/
def runCost (run : List EngineOutcome) (o : EngineOutcome) : ℚ :=
  o.estimatedCost.getD (median (run.filterMap EngineOutcome.estimatedCost))

/-- The composite score of one successful outcome within its run:
weighted sum of normalized confidence, inverse latency, inverse cost and
text length. -/
def compositeScore (w : ScoreWeights) (run : List EngineOutcome)
    (o : EngineOutcome) : ℚ :=
  let confs := run.map EngineOutcome.confidence
  let lats := run.map EngineOutcome.processingTimeMs
  let costs := run.map (runCost run)
  let lens := run.map fun r => (r.textLength : ℚ)
  w.wConfidence * normHigherBetter (qMin confs) (qMax confs) o.confidence +
  w.wLatency * normLowerBetter (qMin lats) (qMax lats) o.processingTimeMs +
  w.wCost * normLowerBetter (qMin costs) (qMax costs) (runCost run o) +
  w.wTextQuality * normHigherBetter (qMin lens) (qMax lens) (o.textLength : ℚ)

/-- One entry of the ranking: the composite score together with the raw
tie-break signals. -/
structure ScoredResult where
  engine : String
  regIndex : ℕ
  score : ℚ
  confidence : ℚ
  latency : ℚ
  deriving Repr, DecidableEq

/-- Scoring every successful outcome of the run. -/
def scoreRun (w : ScoreWeights) (run : List EngineOutcome) : List ScoredResult :=
  run.map fun o =>
    { engine := o.engine
      regIndex := o.regIndex
      score := compositeScore w run o
      confidence := o.confidence
      latency := o.processingTimeMs }

/-- The ranking order of section 4.3: a before b when a has the higher
composite score, or on equal scores the higher raw confidence, then the
lower raw latency, then the earlier registration index. -/
def rankOrder (a b : ScoredResult) : Prop :=
  b.score < a.score ∨
  (a.score = b.score ∧
    (b.confidence < a.confidence ∨
      (a.confidence = b.confidence ∧
        (a.latency < b.latency ∨
          (a.latency = b.latency ∧ a.regIndex ≤ b.regIndex)))))

instance : DecidableRel rankOrder := fun a b => by
  unfold rankOrder
  infer_instance

/-- The ranking of the run: the scored successful results sorted by
rankOrder (insertion sort, which is stable). -/
def rankResults (w : ScoreWeights) (run : List EngineOutcome) : List ScoredResult :=
  List.insertionSort rankOrder (scoreRun w run)

end OcrCompare

namespace OcrCompare

/-- rankOrder is total. -/
theorem rankOrder_total (a b : ScoredResult) : rankOrder a b ∨ rankOrder b a := by
  unfold rankOrder
  rcases lt_trichotomy a.score b.score with h | h | h
  · exact Or.inr (Or.inl h)
  · rcases lt_trichotomy a.confidence b.confidence with h2 | h2 | h2
    · exact Or.inr (Or.inr ⟨h.symm, Or.inl h2⟩)
    · rcases lt_trichotomy a.latency b.latency with h3 | h3 | h3
      · exact Or.inl (Or.inr ⟨h, Or.inr ⟨h2, Or.inl h3⟩⟩)
      · rcases Nat.le_total a.regIndex b.regIndex with h4 | h4
        · exact Or.inl (Or.inr ⟨h, Or.inr ⟨h2, Or.inr ⟨h3, h4⟩⟩⟩)
        · exact Or.inr (Or.inr ⟨h.symm, Or.inr ⟨h2.symm, Or.inr ⟨h3.symm, h4⟩⟩⟩)
      · exact Or.inr (Or.inr ⟨h.symm, Or.inr ⟨h2.symm, Or.inl h3⟩⟩)
    · exact Or.inl (Or.inr ⟨h, Or.inl h2⟩)
  · exact Or.inl (Or.inl h)

/-- rankOrder is transitive. -/
theorem rankOrder_trans (a b c : ScoredResult)
    (hab : rankOrder a b) (hbc : rankOrder b c) : rankOrder a c := by
  unfold rankOrder at *
  rcases hab with h1 | ⟨e1, h1⟩
  · rcases hbc with h2 | ⟨e2, _⟩
    · exact Or.inl (lt_trans h2 h1)
    · exact Or.inl (e2 ▸ h1)
  · rcases hbc with h2 | ⟨e2, h2⟩
    · exact Or.inl (by rw [e1]; exact h2)
    · refine Or.inr ⟨e1.trans e2, ?_⟩
      rcases h1 with hc1 | ⟨ec1, h1⟩
      · rcases h2 with hc2 | ⟨ec2, _⟩
        · exact Or.inl (lt_trans hc2 hc1)
        · exact Or.inl (ec2 ▸ hc1)
      · rcases h2 with hc2 | ⟨ec2, h2⟩
        · exact Or.inl (by rw [ec1]; exact hc2)
        · refine Or.inr ⟨ec1.trans ec2, ?_⟩
          rcases h1 with hl1 | ⟨el1, h1⟩
          · rcases h2 with hl2 | ⟨el2, _⟩
            · exact Or.inl (lt_trans hl1 hl2)
            · exact Or.inl (el2 ▸ hl1)
          · rcases h2 with hl2 | ⟨el2, h2⟩
            · exact Or.inl (by rw [el1]; exact hl2)
            · exact Or.inr ⟨el1.trans el2, le_trans h1 h2⟩

instance : IsTotal ScoredResult rankOrder := ⟨rankOrder_total⟩

instance : IsTrans ScoredResult rankOrder := ⟨rankOrder_trans⟩

/-- rankOrder is antisymmetric up to the ranking key: two results each
ranked at or before the other agree on score, confidence, latency and
registration index. -/
theorem rankOrder_antisymm (a b : ScoredResult)
    (hab : rankOrder a b) (hba : rankOrder b a) :
    a.score = b.score ∧ a.confidence = b.confidence ∧
    a.latency = b.latency ∧ a.regIndex = b.regIndex := by
  unfold rankOrder at *
  rcases hab with h1 | ⟨e1, h1⟩
  · rcases hba with h2 | ⟨e2, _⟩
    · exact absurd (lt_trans h1 h2) (lt_irrefl _)
    · exact absurd h1 (by rw [e2]; exact lt_irrefl _)
  · rcases hba with h2 | ⟨e2, h2⟩
    · exact absurd h2 (by rw [e1]; exact lt_irrefl _)
    · refine ⟨e1, ?_⟩
      rcases h1 with hc1 | ⟨ec1, h1⟩
      · rcases h2 with hc2 | ⟨ec2, _⟩
        · exact absurd (lt_trans hc1 hc2) (lt_irrefl _)
        · exact absurd hc1 (by rw [ec2]; exact lt_irrefl _)
      · rcases h2 with hc2 | ⟨ec2, h2⟩
        · exact absurd hc2 (by rw [ec1]; exact lt_irrefl _)
        · refine ⟨ec1, ?_⟩
          rcases h1 with hl1 | ⟨el1, h1⟩
          · rcases h2 with hl2 | ⟨el2, _⟩
            · exact absurd (lt_trans hl1 hl2) (lt_irrefl _)
            · exact absurd hl1 (el2 ▸ lt_irrefl _)
          · rcases h2 with hl2 | ⟨el2, h2⟩
            · exact absurd hl2 (el1 ▸ lt_irrefl _)
            · exact ⟨el1, le_antisymm h1 h2⟩

/-- A run with a non-terminal engine keeps a null recommendation and a
finalized run satisfies the discipline: helper facts about finalizeRun. -/
theorem finalizeRun_inv (s : RunState) (h : allTerminal s = true) :
    RecommendationInv (finalizeRun s) := by
  by_cases hs : anySucceeded s = true
  · refine ⟨?_, ?_, ?_⟩ <;>
      simp [finalizeRun, hs, RecommendationInv, allTerminal, anySucceeded] at * <;>
      simp_all
  · have hs' : anySucceeded s = false := by
      cases hval : anySucceeded s
      · rfl
      · exact absurd hval hs
    refine ⟨?_, ?_, ?_⟩ <;>
      simp [finalizeRun, hs', RecommendationInv, allTerminal, anySucceeded] at * <;>
      simp_all

/-- An element with a non-terminal state witnesses allTerminal = false. -/
theorem allTerminal_eq_false_of_mem {s : RunState} {e : EngineState}
    (he : e ∈ s.engines) (ht : e.isTerminal = false) :
    allTerminal s = false := by
  cases hval : allTerminal s
  · rfl
  · have := List.all_eq_true.mp hval e he
    rw [ht] at this
    cases this

/-- Starting a parse for an id that is not processing and has no active
run preserves the document list invariant. -/
theorem uiInv_startParse {s : UiListState} {documentId : String}
    (ih : UiInv s) (hnm : documentId ∉ s.processingDocuments)
    (hcnt : activeRunCount s documentId = 0) :
    UiInv (startParse s documentId) := by
  obtain ⟨hnd, hact, hcnts⟩ := ih
  refine ⟨List.nodup_cons.mpr ⟨hnm, hnd⟩, ?_, ?_⟩
  · intro r hr h2
    rcases List.mem_cons.mp hr with h | h
    · rw [h]
      exact List.mem_cons_self _ _
    · exact List.mem_cons_of_mem _ (hact r h h2)
  · intro d
    show (((documentId, true) :: s.runs).countP fun r => r.1 == d && r.2) ≤ 1
    rw [List.countP_cons]
    by_cases hd : (documentId == d) = true
    · have hdd : documentId = d := eq_of_beq hd
      have h0 : s.runs.countP (fun r => r.1 == d && r.2) = 0 := by
        rw [← hdd]
        exact hcnt
      simp [h0, hd]
    · have hdf : ((documentId == d) && true) = false := by
        simp only [Bool.and_true]
        exact Bool.eq_false_iff.mpr hd
      have := hcnts d
      simp only [activeRunCount] at this
      simp [hdf]
      omega

/-- The document list invariant holds in every reachable state. -/
theorem uiInv_of_reachable (s : UiListState) (hs : UiReachable s) : UiInv s := by
  induction hs with
  | init =>
    refine ⟨List.nodup_nil, ?_, ?_⟩
    · intro r hr
      cases hr
    · intro d
      simp [activeRunCount]
  | parse s status documentId _ ih =>
    by_cases hp : isProcessing s status documentId = true
    · simpa [parseDoc, hp] using ih
    · have hnc : s.processingDocuments.contains documentId = false := by
        cases hval : s.processingDocuments.contains documentId
        · rfl
        · refine absurd ?_ hp
          unfold isProcessing
          rw [hval, Bool.or_true]
      have hnm : documentId ∉ s.processingDocuments := by
        intro hmem
        have h2 : s.processingDocuments.contains documentId = true :=
          List.elem_eq_true_of_mem hmem
        rw [hnc] at h2
        exact Bool.noConfusion h2
      have hcnt : activeRunCount s documentId = 0 := by
        rw [activeRunCount, List.countP_eq_zero]
        intro r hr hpr
        simp only [Bool.and_eq_true, beq_iff_eq] at hpr
        exact hnm (hpr.1 ▸ ih.2.1 r hr hpr.2)
      have hres : parseDoc s status documentId = startParse s documentId := by
        simp [parseDoc, hp]
      rw [hres]
      exact uiInv_startParse ih hnm hcnt
  | upload s documentId _ hfresh hnm ih =>
    have hcnt : activeRunCount s documentId = 0 := by
      rw [activeRunCount, List.countP_eq_zero]
      intro r hr hpr
      simp only [Bool.and_eq_true, beq_iff_eq] at hpr
      exact hfresh r.2 (by rw [← hpr.1]; exact hr)
    exact uiInv_startParse ih hnm hcnt
  | complete s documentId _ ih =>
    obtain ⟨hnd, hact, hcnts⟩ := ih
    refine ⟨hnd.erase _, ?_, ?_⟩
    · intro r hr h2
      rcases List.mem_map.mp hr with ⟨r0, hr0, hf⟩
      by_cases hid : (r0.1 == documentId) = true
      · rw [if_pos hid] at hf
        rw [← hf] at h2
        exact absurd h2 (by simp)
      · rw [if_neg hid] at hf
        rw [← hf]
        have hmem := hact r0 hr0 (by rw [hf]; exact h2)
        have hne : r0.1 ≠ documentId := by
          intro he
          exact hid (by rw [he]; exact beq_self_eq_true documentId)
        exact (List.mem_erase_of_ne hne).mpr hmem
    · intro d
      show ((s.runs.map fun r => if r.1 == documentId then (r.1, false) else r).countP
        fun r => r.1 == d && r.2) ≤ 1
      rw [List.countP_map]
      refine le_trans (List.countP_mono_left ?_) (hcnts d)
      intro r hr hpr
      simp only [Function.comp] at hpr
      by_cases hid : (r.1 == documentId) = true
      · rw [if_pos hid] at hpr
        simp at hpr
      · rw [if_neg hid] at hpr
        exact hpr

/-- C8: in every reachable state of the document list there is at most
one active run per document id, and a Parse submission for a document
with an active run is rejected (the click is a no-op, the state does not
change). -/
theorem single_active_run_per_document (s : UiListState) (hs : UiReachable s) :
    (∀ documentId, activeRunCount s documentId ≤ 1) ∧
    ∀ status documentId, 1 ≤ activeRunCount s documentId →
      parseDoc s status documentId = s := by
  obtain ⟨hnd, hact, hcnts⟩ := uiInv_of_reachable s hs
  refine ⟨hcnts, ?_⟩
  intro status documentId hpos
  have hex : ∃ r ∈ s.runs, (r.1 == documentId && r.2) = true :=
    List.countP_pos_iff.mp hpos
  obtain ⟨r, hr, hp⟩ := hex
  simp only [Bool.and_eq_true, beq_iff_eq] at hp
  have hmem : documentId ∈ s.processingDocuments := hp.1 ▸ hact r hr hp.2
  have hip : isProcessing s status documentId = true := by
    simp [isProcessing, hmem]
  simp [parseDoc, hip]

/-- Witness for C8: after one Parse click on a fresh document, the id
has one active run and a second click is rejected. -/
theorem single_active_run_per_document_witness :
    activeRunCount (parseDoc ⟨[], []⟩ "pending" "a") "a" ≤ 1 ∧
    parseDoc (parseDoc ⟨[], []⟩ "pending" "a") "pending" "a" =
      parseDoc ⟨[], []⟩ "pending" "a" :=
  ⟨(single_active_run_per_document _
      (UiReachable.parse _ "pending" "a" UiReachable.init)).1 "a",
   (single_active_run_per_document _
      (UiReachable.parse _ "pending" "a" UiReachable.init)).2 "pending" "a"
      (by decide)⟩

/-- C7: the ranking of the successful results of one run is a
permutation of the scored results sorted by rankOrder — descending
composite score, ties broken by higher raw confidence, then lower raw
latency, then engine registration order — and rankOrder is a total
relation that is antisymmetric on the whole ranking key, so the ranking
is a deterministic total order (computed by a stable insertion sort). -/
theorem ranking_descending_with_tiebreaks
    (w : ScoreWeights) (run : List EngineOutcome) :
    (rankResults w run).Perm (scoreRun w run) ∧
    (rankResults w run).Sorted rankOrder ∧
    (∀ a b : ScoredResult, rankOrder a b ∨ rankOrder b a) ∧
    ∀ a b : ScoredResult, rankOrder a b → rankOrder b a →
      a.score = b.score ∧ a.confidence = b.confidence ∧
      a.latency = b.latency ∧ a.regIndex = b.regIndex :=
  ⟨List.perm_insertionSort _ _, List.sorted_insertionSort _ _,
   rankOrder_total, rankOrder_antisymm⟩

/-- C3: in every reachable state of a run over at least one engine, the
recommendation is null while some EngineRun is non-terminal; once all are
terminal it is non-null with status completed when at least one engine
succeeded, and null with status failed when none did. -/
theorem recommendation_iff_all_terminal
    (n : ℕ) (s : RunState) (hn : 1 ≤ n) (hs : RunReachable n s) :
    RecommendationInv s := by
  induction hs with
  | init =>
    have hmem : EngineState.queued ∈ (initRun n).engines := by
      simp [initRun, List.mem_replicate]
      omega
    have hat : allTerminal (initRun n) = false :=
      allTerminal_eq_false_of_mem hmem rfl
    exact ⟨fun _ => rfl,
      fun h => by rw [hat] at h; exact Bool.noConfusion h,
      fun h => by rw [hat] at h; exact Bool.noConfusion h⟩
  | start s i _ ih =>
    by_cases hq : s.engines[i]? = some EngineState.queued
    · have hlt : i < s.engines.length := (List.getElem?_eq_some_iff.mp hq).1
      have hmemq : EngineState.queued ∈ s.engines := List.getElem?_mem hq
      have hpre : allTerminal s = false := allTerminal_eq_false_of_mem hmemq rfl
      have hrecn : s.recommendation = none := ih.1 hpre
      have hres : startEngine s i =
          { s with engines := s.engines.set i .running } := by
        simp [startEngine, hq]
      have hro : EngineState.running ∈ s.engines.set i .running :=
        List.mem_set s.engines i hlt _
      have hat : allTerminal { s with engines := s.engines.set i .running } = false :=
        allTerminal_eq_false_of_mem hro rfl
      rw [hres]
      exact ⟨fun _ => hrecn,
        fun h => by rw [hat] at h; exact Bool.noConfusion h,
        fun h => by rw [hat] at h; exact Bool.noConfusion h⟩
    · have hres : startEngine s i = s := by simp [startEngine, hq]
      rw [hres]
      exact ih
  | finish s i t _ ih =>
    cases hg : s.engines[i]? with
    | none =>
      have hres : finishEngine s i t = s := by simp [finishEngine, hg]
      rw [hres]
      exact ih
    | some e =>
      by_cases hc : (!e.isTerminal && t.isTerminal) = true
      · have he : e.isTerminal = false := by
          have h2 := hc
          simp only [Bool.and_eq_true, Bool.not_eq_true'] at h2
          exact h2.1
        have hmeme : e ∈ s.engines := List.getElem?_mem hg
        have hpre : allTerminal s = false := allTerminal_eq_false_of_mem hmeme he
        have hrecn : s.recommendation = none := ih.1 hpre
        have hres : finishEngine s i t =
            maybeFinalize { s with engines := s.engines.set i t } := by
          simp [finishEngine, hg, hc]
        rw [hres]
        unfold maybeFinalize
        by_cases hT : allTerminal { s with engines := s.engines.set i t } = true
        · rw [if_pos hT]
          exact finalizeRun_inv _ hT
        · rw [if_neg hT]
          exact ⟨fun _ => hrecn, fun h => absurd h hT, fun h => absurd h hT⟩
      · have hcf : (!e.isTerminal && t.isTerminal) = false :=
          Bool.eq_false_iff.mpr hc
        have hres : finishEngine s i t = s := by simp [finishEngine, hg, hcf]
        rw [hres]
        exact ih
  | cancel s _ ih =>
    have hT : allTerminal
        { s with engines :=
            s.engines.map fun e => if e.isTerminal then e else .cancelled } = true := by
      show (s.engines.map fun e => if e.isTerminal then e else .cancelled).all
        EngineState.isTerminal = true
      rw [List.all_map, List.all_eq_true]
      intro e _
      cases e <;> rfl
    exact finalizeRun_inv _ hT

/-- Witness for C3: a two-engine run in which one engine succeeds and
the other fails. -/
theorem recommendation_iff_all_terminal_witness :
    RecommendationInv
      (finishEngine (finishEngine (initRun 2) 0 .succeeded) 1 .failed) :=
  recommendation_iff_all_terminal 2 _ (by norm_num)
    (RunReachable.finish _ 1 .failed
      (RunReachable.finish _ 0 .succeeded RunReachable.init))

/-- C1: the claim says a failed OcrResult (non-null errorMessage) is never
selected and marked as best. The component refutes this: Array.reduce is
seeded with the first element, so when the first result failed and no
successful result has a strictly higher coerced confidence, the failed
result is marked best. Shown here on the seed-data easyocr failure, alone
and ahead of a zero-confidence success. -/
theorem isBestResult_marks_failed_result_best :
    jsStrTruthy easyocrFailedUiResult.errorMessage = true ∧
    isBestResult [easyocrFailedUiResult] easyocrFailedUiResult = true ∧
    isBestResult [easyocrFailedUiResult, zeroConfidenceUiResult]
      easyocrFailedUiResult = true := by
  decide

/-- C10: getConfidencePercent is total over nullable confidence inputs:
it returns 0 on null, and on a confidence in [0,1] it returns
Math.round(confidence * 100), an integer between 0 and 100. -/
theorem getConfidencePercent_total_and_bounded (c : ℚ) (h0 : 0 ≤ c) (h1 : c ≤ 1) :
    getConfidencePercent none = 0 ∧
    getConfidencePercent (some c) = jsRound (c * 100) ∧
    0 ≤ getConfidencePercent (some c) ∧
    getConfidencePercent (some c) ≤ 100 := by
  refine ⟨rfl, rfl, ?_, ?_⟩
  · have hx : (0 : ℚ) ≤ c * 100 + 1 / 2 := by nlinarith
    simpa [getConfidencePercent, jsRound] using Int.floor_nonneg.mpr hx
  · have hx : c * 100 + 1 / 2 ≤ (201 : ℚ) / 2 := by nlinarith
    have hfl : (⌊c * 100 + 1 / 2⌋ : ℤ) ≤ ⌊(201 : ℚ) / 2⌋ := Int.floor_le_floor hx
    have h201 : (⌊(201 : ℚ) / 2⌋ : ℤ) = 100 := by
      rw [Int.floor_eq_iff]
      norm_num
    simpa [getConfidencePercent, jsRound, h201] using hfl

/-- Witness for C10 at the concrete confidence 0.925, which rounds to
93 percent. -/
theorem getConfidencePercent_total_and_bounded_witness :
    getConfidencePercent none = 0 ∧
    getConfidencePercent (some (37 / 40)) = jsRound (37 / 40 * 100) ∧
    0 ≤ getConfidencePercent (some (37 / 40)) ∧
    getConfidencePercent (some (37 / 40)) ≤ 100 :=
  getConfidencePercent_total_and_bounded (37 / 40) (by norm_num) (by norm_num)

/-- C2: confidenceScore is null exactly when errorMessage is non-null,
and a present confidence lies in [0,1]: this holds for every ocr_results
row the repository contains, and for every row the (spec-modelled)
recorder produces from a well-formed adapter outcome. -/
theorem confidence_null_iff_error
    (id documentId engine : String) (o : Outcome) (hwf : OutcomeWf o) :
    (sampleOcrResults.all fun r =>
      (r.confidenceScore.isNone == r.errorMessage.isSome) &&
        confidenceInRange r.confidenceScore) = true ∧
    ((recordOutcome id documentId engine o).confidenceScore = none ↔
      (recordOutcome id documentId engine o).errorMessage ≠ none) ∧
    confidenceInRange (recordOutcome id documentId engine o).confidenceScore = true := by
  refine ⟨by decide, ?_, ?_⟩
  · cases o <;> simp [recordOutcome]
  · cases o with
    | success text confidence cost elapsedMs =>
      rcases hwf with ⟨h0, h1⟩
      simp [recordOutcome, confidenceInRange, h0, h1]
    | failure reason elapsedMs =>
      simp [recordOutcome, confidenceInRange]

/-- Witness for C2 at a concrete successful outcome with confidence
0.92. -/
theorem confidence_null_iff_error_witness :
    (sampleOcrResults.all fun r =>
      (r.confidenceScore.isNone == r.errorMessage.isSome) &&
        confidenceInRange r.confidenceScore) = true ∧
    ((recordOutcome "i" "d" "paddleocr"
        (.success "text" (23 / 25) (some (7 / 100)) 3500)).confidenceScore = none ↔
      (recordOutcome "i" "d" "paddleocr"
        (.success "text" (23 / 25) (some (7 / 100)) 3500)).errorMessage ≠ none) ∧
    confidenceInRange (recordOutcome "i" "d" "paddleocr"
        (.success "text" (23 / 25) (some (7 / 100)) 3500)).confidenceScore = true :=
  confidence_null_iff_error "i" "d" "paddleocr"
    (.success "text" (23 / 25) (some (7 / 100)) 3500) (by constructor <;> norm_num)

/-- C6 counterexample: the claim says extractedText is null on failure,
but the failed easyocr row of the repository has a non-null (empty
string) extracted_text — the schema even declares the column NOT NULL. -/
theorem failed_row_extractedText_not_null :
    easyocrFailedRow ∈ sampleOcrResults ∧
    easyocrFailedRow.errorMessage.isSome = true ∧
    easyocrFailedRow.extractedText = some "" ∧
    easyocrFailedRow.extractedText ≠ none := by
  refine ⟨by simp [sampleOcrResults], by decide, by decide, by decide⟩

/-- C6 amended: extracted_text and processing_time_ms are NOT NULL, so
both are present on success and on failure alike; on the failed row the
extracted text is the empty string. The recorder model preserves the NOT
NULL discipline for every outcome. -/
theorem extractedText_present_processingTime_present :
    (sampleOcrResults.all ocrRowSchemaOk) = true ∧
    (sampleOcrResults.all fun r =>
      !r.errorMessage.isSome || (r.extractedText == some "")) = true ∧
    ∀ id documentId engine o,
      ocrRowSchemaOk (recordOutcome id documentId engine o) = true := by
  refine ⟨by decide, by decide, ?_⟩
  intro id documentId engine o
  cases o <;> simp [recordOutcome, ocrRowSchemaOk]

/-- C9 counterexample: for the body with code 1 and msg present but
empty, the rejection carries the localized fallback text, not the body
msg — `res.msg || t(...)` treats the empty string as absent. -/
theorem interceptor_empty_msg_not_propagated :
    responseOnFulfilled
      (.objBody { status := 200, code := 1, msg := some "", data := "" }) =
      .rejected requestErrorText ∧
    requestErrorText ≠ "" := by
  constructor
  · rfl
  · decide

/-- C9 amended: the fulfilled interceptor rejects exactly the non-string
bodies whose code is non-zero; the rejection carries the body msg when it
is present and non-empty (otherwise the localized fallback), and a body
with code 0 resolves unchanged. -/
theorem interceptor_failure_iff_nonzero_code (r : HttpBodyObj) :
    ((∃ m, responseOnFulfilled (.objBody r) = .rejected m) ↔ r.code ≠ 0) ∧
    (r.code ≠ 0 →
      responseOnFulfilled (.objBody r) = .rejected (jsStrOr r.msg requestErrorText)) ∧
    (∀ s, r.msg = some s → s ≠ "" → jsStrOr r.msg requestErrorText = s) ∧
    (r.code = 0 → responseOnFulfilled (.objBody r) = .resolved (.objBody r)) := by
  refine ⟨?_, ?_, ?_, ?_⟩
  · by_cases h : r.code = 0 <;> simp [responseOnFulfilled, h]
  · intro h
    simp [responseOnFulfilled, h]
  · intro s hs hne
    simp [jsStrOr, hs, hne]
  · intro h
    simp [responseOnFulfilled, h]

/-- Witness for C9 at two concrete bodies: code 5 with msg rejects with
that msg, code 0 resolves unchanged. -/
theorem interceptor_failure_iff_nonzero_code_witness :
    ((∃ m, responseOnFulfilled
        (.objBody { status := 200, code := 5, msg := some "boom", data := "" }) =
          .rejected m) ↔ (5 : ℤ) ≠ 0) ∧
    responseOnFulfilled
      (.objBody { status := 200, code := 5, msg := some "boom", data := "" }) =
        .rejected (jsStrOr (some "boom") requestErrorText) ∧
    jsStrOr (some "boom") requestErrorText = "boom" ∧
    responseOnFulfilled
      (.objBody { status := 200, code := 0, msg := none, data := "ok" }) =
        .resolved (.objBody { status := 200, code := 0, msg := none, data := "ok" }) :=
  ⟨(interceptor_failure_iff_nonzero_code
      { status := 200, code := 5, msg := some "boom", data := "" }).1,
   (interceptor_failure_iff_nonzero_code
      { status := 200, code := 5, msg := some "boom", data := "" }).2.1 (by decide),
   (interceptor_failure_iff_nonzero_code
      { status := 200, code := 5, msg := some "boom", data := "" }).2.2.1
      "boom" rfl (by decide),
   (interceptor_failure_iff_nonzero_code
      { status := 200, code := 0, msg := none, data := "ok" }).2.2.2 rfl⟩

/-- C4: every progress message conforms to the wire schema — required
string fields, integral current and total, numeric percentage and
timestamp, optional boolean completed and success, no other field — and
the subscription handshake is exactly an object with fields doc_id and
token. -/
theorem progress_wire_schema_and_handshake
    (p : ProgressData) (documentId token : String) :
    progressWireSchemaOk (progressMessageJson p) = true ∧
    handshakeMessage documentId token =
      .jobj [("doc_id", .jstr documentId), ("token", .jstr token)] ∧
    jsonKeys (handshakeMessage documentId token) = ["doc_id", "token"] := by
  refine ⟨?_, rfl, rfl⟩
  rcases p with ⟨d, st, cur, tot, pct, msg, cpl, sic, ts⟩
  cases cpl <;> cases sic <;>
    simp [progressMessageJson, progressWireSchemaOk, fieldSatisfies,
      optionalFieldSatisfies, jsonField, jsonKeys, List.lookup,
      Json.isStr, Json.isNum, Json.isIntNum, Json.isBool, Json.isObj]

/-- C5: for every subscriber to the progress channel of a document — whatever
event it joined at — the delivered sequence is non-decreasing in
percentage and in timestamp, given the monotone wall clock. -/
theorem progress_delivery_monotone
    (documentId : String) (total joinIdx : ℕ) (times : ℕ → ℚ)
    (hmono : ∀ k, times k ≤ times (k + 1)) :
    (deliveredTo (emittedLog documentId total times) joinIdx).Pairwise
      (fun a b => a.percentage ≤ b.percentage ∧ a.timestamp ≤ b.timestamp) := by
  have hlog : (emittedLog documentId total times).Pairwise
      (fun a b => a.percentage ≤ b.percentage ∧ a.timestamp ≤ b.timestamp) := by
    rw [List.pairwise_iff_getElem]
    intro i j hi hj hij
    have hlen : (emittedLog documentId total times).length = total := by
      simp [emittedLog]
    have hi' : i < total := by rwa [hlen] at hi
    have hj' : j < total := by rwa [hlen] at hj
    have hgi : (emittedLog documentId total times)[i] =
        progressEventAt documentId total times i := by
      simp [emittedLog]
    have hgj : (emittedLog documentId total times)[j] =
        progressEventAt documentId total times j := by
      simp [emittedLog]
    rw [hgi, hgj]
    constructor
    · show 100 * ((i : ℚ) + 1) / (total : ℚ) ≤ 100 * ((j : ℚ) + 1) / (total : ℚ)
      have htot : (0 : ℚ) < (total : ℚ) := by
        have h0 : 0 < total := Nat.lt_of_le_of_lt (Nat.zero_le j) hj'
        exact_mod_cast h0
      have hle : (i : ℚ) ≤ (j : ℚ) := by exact_mod_cast Nat.le_of_lt hij
      exact (div_le_div_iff_of_pos_right htot).mpr (by linarith)
    · show times i ≤ times j
      exact monotone_nat_of_le_succ hmono (Nat.le_of_lt hij)
  exact hlog.sublist (List.drop_sublist _ _)

/-- Witness for C5 with three engines, the identity clock and a
subscriber joining after the second event. -/
theorem progress_delivery_monotone_witness :
    (deliveredTo (emittedLog "doc" 3 (fun k => (k : ℚ))) 2).Pairwise
      (fun a b => a.percentage ≤ b.percentage ∧ a.timestamp ≤ b.timestamp) :=
  progress_delivery_monotone "doc" 3 2 (fun k => (k : ℚ))
    (fun k => by
      show (k : ℚ) ≤ ((k + 1 : ℕ) : ℚ)
      push_cast
      linarith)

end OcrCompare
